import Mathlib

/-
  Verification of the reviewer assignment/reassignment engine of the
  assigning-pr-service repository.

  The Go source (internal/models, internal/repo/repo.go,
  internal/service/service.go, migrations/001_init.up.sql) is shallowly
  embedded below.  The relational store is a record of in-memory tables;
  SQL queries become pure list transformations (ORDER BY user_id becomes an
  insertion sort on strings, SELECT DISTINCT becomes List.dedup).  The
  injected randomness source (math/rand via the Intn / Shuffle interface)
  is a stream of naturals with a cursor; Intn n draws the next value mod n,
  and Shuffle is the Fisher-Yates loop that rand.Shuffle performs.
  Primary-key enforcement of the pr_reviewers table (PK (pr_id, user_id))
  is modelled by making inserts fail (return none) on a duplicate pair,
  exactly as the underlying store would reject the INSERT and abort the
  enclosing transaction.
-/

namespace PRReviewer

/-- Row of the users table (models.User / migrations 001). -/
structure User where
  UserID : String
  Username : String
  TeamName : String
  IsActive : Bool
deriving DecidableEq

/-- Row of the pull_requests table. -/
structure PRRow where
  prId : String
  prName : String
  authorId : String
  status : String
  createdAt : Option Nat
  mergedAt : Option Nat
deriving DecidableEq

/-- models.PR: the fully populated pull request returned by the repo layer. -/
structure PR where
  ID : String
  Name : String
  AuthorID : String
  Status : String
  AssignedReviewers : List String
  CreatedAt : Option Nat
  MergedAt : Option Nat
deriving DecidableEq

/-- The relational store: teams(team_name), users, pull_requests,
pr_reviewers(pull_request_id, user_id). -/
structure DBState where
  teams : List String
  users : List User
  prs : List PRRow
  prReviewers : List (String × String)
deriving DecidableEq

/-- The injected randomness source (math/rand behind the Intn interface):
a stream of naturals and a cursor. -/
structure Rng where
  seq : Nat → Nat
  idx : Nat

/-- rng.Intn(n): next draw reduced mod n (uniform draw in [0, n) in Go). -/
def Rng.intn (r : Rng) (n : Nat) : Nat × Rng :=
  (r.seq r.idx % n, { r with idx := r.idx + 1 })

/-- Byte-wise lexicographic comparison of character lists, modelling the
text ordering the store applies in ORDER BY. -/
def strLtB : List Char → List Char → Bool
  | [], [] => false
  | [], _ :: _ => true
  | _ :: _, [] => false
  | a :: as, b :: bs =>
      if a.toNat < b.toNat then true
      else if b.toNat < a.toNat then false
      else strLtB as bs

/-- Lexicographic order on strings used for ORDER BY user_id. -/
def strLt (x y : String) : Bool := strLtB x.data y.data

/-- Insertion step for the ascending ORDER BY user_id of the SQL queries. -/
def insertSorted (x : String) : List String → List String
  | [] => [x]
  | y :: ys => if strLt y x then y :: insertSorted x ys else x :: y :: ys

/-- Ascending sort on strings, modelling ORDER BY on a text column. -/
def sortStrings : List String → List String
  | [] => []
  | x :: xs => insertSorted x (sortStrings xs)

/-- repo.TeamExists: SELECT EXISTS(... FROM teams WHERE team_name=$1). -/
def TeamExists (s : DBState) (name : String) : Bool :=
  s.teams.contains name

/-- repo.GetUser: SELECT ... FROM users WHERE user_id=$1 (none on no rows). -/
def GetUser (s : DBState) (uid : String) : Option User :=
  s.users.find? (fun u => u.UserID == uid)

/-- Outcome of repo.GetUser seen with its error value: on pgx.ErrNoRows the
repo returns (nil, ErrNotFound); on any other scan error it returns the
address of the zero-valued local u together with that error; otherwise the
found user. -/
inductive GetUserOutcome where
  | found : User → GetUserOutcome
  | notFound : GetUserOutcome
  | scanFailed : User → GetUserOutcome
deriving DecidableEq

/-- repo.GetUser with an injected storage failure (fault = true models a
QueryRow/Scan error that is not pgx.ErrNoRows; the function then returns
the zero value of models.User alongside the error, never a nil pointer). -/
def GetUserWithFault (s : DBState) (uid : String) (fault : Bool) : GetUserOutcome :=
  if fault then
    .scanFailed { UserID := "", Username := "", TeamName := "", IsActive := false }
  else
    match s.users.find? (fun u => u.UserID == uid) with
    | some u => .found u
    | none => .notFound

/-- repo.GetActiveTeamMembers: active users of a team ordered by user_id,
minus the excluded ids. -/
def GetActiveTeamMembers (s : DBState) (teamName : String) (excludeIDs : List String) :
    List String :=
  let rows := sortStrings ((s.users.filter
    (fun u => u.TeamName == teamName && u.IsActive)).map (fun u => u.UserID))
  rows.filter (fun uid => !(excludeIDs.contains uid))

/-- repo.PRExists: SELECT EXISTS(... FROM pull_requests WHERE id=$1). -/
def PRExists (s : DBState) (prID : String) : Bool :=
  s.prs.any (fun p => p.prId == prID)

/-- The reviewer ids of a pull request in table order (before the
ORDER BY user_id applied by repo.GetPR). -/
def revsRaw (s : DBState) (prID : String) : List String :=
  (s.prReviewers.filter (fun rv => rv.1 == prID)).map (fun rv => rv.2)

/-- repo.GetPR: the pull_requests row joined with its reviewer ids ordered
by user_id. -/
def GetPR (s : DBState) (prID : String) : Option PR :=
  match s.prs.find? (fun p => p.prId == prID) with
  | none => none
  | some row =>
      some { ID := row.prId, Name := row.prName, AuthorID := row.authorId,
             Status := row.status, AssignedReviewers := sortStrings (revsRaw s prID),
             CreatedAt := row.createdAt, MergedAt := row.mergedAt }

/-- Insert into pr_reviewers with its primary key (pull_request_id, user_id):
a duplicate pair makes the INSERT fail, aborting the transaction (none). -/
def insertPrReviewer (rvs : List (String × String)) (prID uid : String) :
    Option (List (String × String)) :=
  if rvs.contains (prID, uid) then none else some (rvs ++ [(prID, uid)])

/-- The reviewer insert loop of repo.CreatePR. -/
def insertAllReviewers (rvs : List (String × String)) (prID : String) :
    List String → Option (List (String × String))
  | [] => some rvs
  | x :: xs =>
      match insertPrReviewer rvs prID x with
      | none => none
      | some rvs' => insertAllReviewers rvs' prID xs

/-- repo.CreatePR: insert the pull_requests row with status OPEN plus one
pr_reviewers row per assigned reviewer, in one transaction; a primary-key
violation aborts the whole transaction. -/
def CreatePR (s : DBState) (pr : PR) (now : Nat) : Option DBState :=
  if s.prs.any (fun p => p.prId == pr.ID) then none
  else
    match insertAllReviewers s.prReviewers pr.ID pr.AssignedReviewers with
    | none => none
    | some rvs' =>
        some { s with
          prs := s.prs ++ [{ prId := pr.ID, prName := pr.Name, authorId := pr.AuthorID,
                             status := "OPEN", createdAt := some now, mergedAt := none }],
          prReviewers := rvs' }

/-- repo.MergePR: UPDATE pull_requests SET status MERGED, merged_at = NOW()
WHERE pull_request_id = prID AND status = OPEN (the service has already
checked that the PR exists). -/
def MergePR (s : DBState) (prID : String) (now : Nat) : DBState :=
  { s with prs := s.prs.map (fun p =>
      if p.prId == prID && p.status == "OPEN" then
        { p with status := "MERGED", mergedAt := some now }
      else p) }

/-- repo.ReplaceReviewer: in one transaction delete the (prID, old) row and,
when the new id is not empty, insert the (prID, new) row; a duplicate-key
insert aborts the transaction. -/
def ReplaceReviewer (s : DBState) (prID oldReviewerID newReviewerID : String) :
    Option DBState :=
  let rvs1 := s.prReviewers.filter (fun rv => !(rv.1 == prID && rv.2 == oldReviewerID))
  if newReviewerID == "" then some { s with prReviewers := rvs1 }
  else
    match insertPrReviewer rvs1 prID newReviewerID with
    | none => none
    | some rvs2 => some { s with prReviewers := rvs2 }

/-- The SET is_active=false clause of the deactivation UPDATE applied to one
users row matched by its WHERE clause. -/
def applyDeactivation (teamName : String) (u : User) : User :=
  if u.TeamName == teamName && u.IsActive then { u with IsActive := false } else u

/-- repo.deactivateTeamUsers: UPDATE users SET is_active=false WHERE
team_name=$1 AND is_active=true RETURNING user_id. -/
def deactivateTeamUsers (s : DBState) (teamName : String) : DBState × List String :=
  let deactivated := (s.users.filter
    (fun u => u.TeamName == teamName && u.IsActive)).map (fun u => u.UserID)
  let users' := s.users.map (applyDeactivation teamName)
  ({ s with users := users' }, deactivated)

/-- repo.prData: per-pull-request data gathered by getAffectedPRs. -/
structure prData where
  prID : String
  authorID : String
  reviewers : List String
deriving DecidableEq

/-- repo.getAffectedPRs: SELECT DISTINCT pr id, author, reviewer over OPEN
pull requests whose reviewer is one of the deactivated users, grouped per
pull request.  Only reviewers belonging to the deactivated set appear in
the join result, hence in the per-PR reviewer list. -/
def getAffectedPRs (s : DBState) (deactivated : List String) : List prData :=
  (s.prs.filter (fun p => p.status == "OPEN")).filterMap (fun p =>
    let stale := (((s.prReviewers.filter
      (fun rv => rv.1 == p.prId && deactivated.contains rv.2)).map
        (fun rv => rv.2)).dedup)
    if stale.isEmpty then none else some ⟨p.prId, p.authorId, stale⟩)

/-- repo.getActiveUsersByTeam: the post-deactivation snapshot map from team
name to its active user ids (a missing key reads as the empty list, as a
Go map does). -/
def getActiveUsersByTeam (s : DBState) : String → List String :=
  fun team => sortStrings ((s.users.filter
    (fun u => u.IsActive && u.TeamName == team)).map (fun u => u.UserID))

/-- repo.getUserTeams: the map from each deactivated user id to its
team_name, looked up row by row (a missing key reads as the empty string,
as a Go map does). -/
def getUserTeams (s : DBState) (deactivated : List String) : String → String :=
  fun uid =>
    if deactivated.contains uid then
      match s.users.find? (fun u => u.UserID == uid) with
      | some u => u.TeamName
      | none => ""
    else ""

/-- The exclusion set built inside the swap loop of repo.reassignReviewers:
the PR author plus the reviewer list recorded for the PR. -/
def excludeFor (authorID : String) (reviewers : List String) : List String :=
  authorID :: reviewers

/-- One per-swap record of the cascade ({"pr_id", "old", "new"}). -/
structure Reassignment where
  pr_id : String
  old : String
  new : String
deriving DecidableEq

/-- The inner loop of repo.reassignReviewers over the stale reviewers of one
affected PR: pick a replacement from the active members of the stale
reviewer's team minus the exclusion set (author plus the recorded reviewer
snapshot), delete the old assignment row and insert the replacement when
one was found.  A duplicate-key insert aborts the transaction (none). -/
def doSwaps (pr : prData) (userTeams : String → String)
    (activeCandidates : String → List String) :
    List String → List (String × String) → List Reassignment → Rng →
    Option (List (String × String) × List Reassignment × Rng)
  | [], rvs, recs, rng => some (rvs, recs, rng)
  | oldReviewer :: rest, rvs, recs, rng =>
      let team := userTeams oldReviewer
      let candidates := activeCandidates team
      let exclude := excludeFor pr.authorID pr.reviewers
      let filtered := candidates.filter (fun c => !(exclude.contains c))
      let picked :=
        if 0 < filtered.length then
          let (j, r') := rng.intn filtered.length
          (filtered.getD j "", r')
        else ("", rng)
      let newReviewer := picked.1
      let rng' := picked.2
      let rvs1 := rvs.filter (fun rv => !(rv.1 == pr.prID && rv.2 == oldReviewer))
      match (if newReviewer == "" then some rvs1
             else insertPrReviewer rvs1 pr.prID newReviewer) with
      | none => none
      | some rvs2 =>
          doSwaps pr userTeams activeCandidates rest rvs2
            (recs ++ [⟨pr.prID, oldReviewer, newReviewer⟩]) rng'

/-- repo.reassignReviewers: iterate the affected PRs, swapping each stale
reviewer in turn (the Go map iteration order is abstracted to the list
order of the affected PRs). -/
def reassignReviewers (userTeams : String → String)
    (activeCandidates : String → List String) :
    List prData → List (String × String) → List Reassignment → Rng →
    Option (List (String × String) × List Reassignment × Rng)
  | [], rvs, recs, rng => some (rvs, recs, rng)
  | pr :: rest, rvs, recs, rng =>
      match doSwaps pr userTeams activeCandidates pr.reviewers rvs recs rng with
      | none => none
      | some (rvs', recs', rng') =>
          reassignReviewers userTeams activeCandidates rest rvs' recs' rng'

/-- repo.DeactivationResult. -/
structure DeactivationResult where
  DeactivatedUsers : List String
  Reassignments : List Reassignment
deriving DecidableEq

/-- repo.DeactivateTeamAndReassignPRs: one transaction that deactivates the
team's active members, finds the affected OPEN pull requests, snapshots
the post-deactivation active users per team and each deactivated user's
team, and performs the swaps.  none models a transaction abort, after
which the caller sees the original state. -/
def DeactivateTeamAndReassignPRs (s : DBState) (teamName : String) (rng : Rng) :
    Option (DeactivationResult × DBState × Rng) :=
  let step := deactivateTeamUsers s teamName
  let s1 := step.1
  let deactivated := step.2
  if deactivated.isEmpty then some (⟨[], []⟩, s1, rng)
  else
    let affectedPRs := getAffectedPRs s1 deactivated
    let activeCandidates := getActiveUsersByTeam s1
    let userTeams := getUserTeams s1 deactivated
    match reassignReviewers userTeams activeCandidates affectedPRs s1.prReviewers [] rng with
    | none => none
    | some (rvs', recs, rng') =>
        some (⟨deactivated, recs⟩, { s1 with prReviewers := rvs' }, rng')

/-- The reassignment records of a cascade result (empty on a failed
transaction, which returns no records to the caller). -/
def cascadeReassignments : Option (DeactivationResult × DBState × Rng) → List Reassignment
  | some (res, _, _) => res.Reassignments
  | none => []

/-- The typed service errors of internal/service. -/
inductive SvcErr where
  | teamExists
  | teamNotFound
  | userNotFound
  | authorNotFound
  | prExists
  | prNotFound
  | prMerged
  | notAssigned
  | noCandidate
  | internal
deriving DecidableEq

/-- service.pickRandomReviewers with the Fisher-Yates swap of a list. -/
def swapL (l : List String) (i j : Nat) : List String :=
  match l[i]?, l[j]? with
  | some a, some b => (l.set i b).set j a
  | _, _ => l

/-- The loop of rand.Shuffle: for i from n-1 down to 1, draw j in [0, i+1)
and swap positions i and j. -/
def shuffleFrom : Nat → List String → Rng → List String × Rng
  | 0, l, rng => (l, rng)
  | i + 1, l, rng =>
      let step := rng.intn (i + 2)
      shuffleFrom i (swapL l (i + 1) step.1) step.2

/-- rng.Shuffle over a copied slice, as service.pickRandomReviewers does. -/
def shuffleGo (l : List String) (rng : Rng) : List String × Rng :=
  shuffleFrom (l.length - 1) l rng

/-- service.pickRandomReviewers: all candidates when there are at most n of
them, otherwise the first n entries of a shuffled copy. -/
def pickRandomReviewers (candidates : List String) (n : Nat) (rng : Rng) :
    List String × Rng :=
  if candidates.length ≤ n then (candidates, rng)
  else
    let shuffled := shuffleGo candidates rng
    (shuffled.1.take n, shuffled.2)

/-- service.CreatePullRequest: pre-check the id, resolve the author, draw up
to two reviewers from the active members of the author's team excluding
the author, insert the PR with its reviewers, and return the stored PR. -/
def CreatePullRequest (s : DBState) (prID prName authorID : String) (rng : Rng)
    (now : Nat) : Except SvcErr PR × DBState × Rng :=
  if PRExists s prID then (.error .prExists, s, rng)
  else
    match GetUser s authorID with
    | none => (.error .authorNotFound, s, rng)
    | some author =>
        let candidates := GetActiveTeamMembers s author.TeamName [authorID]
        let pickedPair := pickRandomReviewers candidates 2 rng
        let reviewers := pickedPair.1
        let rng' := pickedPair.2
        match CreatePR s { ID := prID, Name := prName, AuthorID := authorID,
                           Status := "OPEN", AssignedReviewers := reviewers,
                           CreatedAt := none, MergedAt := none } now with
        | none => (.error .internal, s, rng')
        | some s' =>
            match GetPR s' prID with
            | some pr => (.ok pr, s', rng')
            | none => (.error .prNotFound, s', rng')

/-- service.MergePullRequest: a PR already MERGED is returned unchanged
with no error; otherwise the transition to MERGED is applied and the
updated PR returned. -/
def MergePullRequest (s : DBState) (prID : String) (now : Nat) :
    Except SvcErr PR × DBState :=
  match GetPR s prID with
  | none => (.error .prNotFound, s)
  | some currentPR =>
      if currentPR.Status == "MERGED" then (.ok currentPR, s)
      else
        let s' := MergePR s prID now
        match GetPR s' prID with
        | some pr => (.ok pr, s')
        | none => (.error .prNotFound, s')

/-- service.ReassignReviewer with the storage fault injected at the
GetUser(oldReviewerID) call (fault = true models a non-not-found storage
error there; the source checks only errors.Is(err, repo.ErrNotFound) and
otherwise continues with the returned zero-valued user). -/
def reassignReviewerCore (s : DBState) (prID oldReviewerID : String) (rng : Rng)
    (fault : Bool) : Except SvcErr (PR × String) × DBState × Rng :=
  match GetPR s prID with
  | none => (.error .prNotFound, s, rng)
  | some pr =>
      if pr.Status == "MERGED" then (.error .prMerged, s, rng)
      else if !(pr.AssignedReviewers.contains oldReviewerID) then
        (.error .notAssigned, s, rng)
      else
        match GetUserWithFault s oldReviewerID fault with
        | .notFound => (.error .userNotFound, s, rng)
        | .found oldReviewer | .scanFailed oldReviewer =>
            let excludeList := pr.AssignedReviewers ++ [pr.AuthorID]
            let candidates := GetActiveTeamMembers s oldReviewer.TeamName excludeList
            if candidates.length == 0 then (.error .noCandidate, s, rng)
            else
              let drawn := rng.intn candidates.length
              let newReviewer := candidates.getD drawn.1 ""
              match ReplaceReviewer s prID oldReviewerID newReviewer with
              | none => (.error .internal, s, drawn.2)
              | some s' =>
                  match GetPR s' prID with
                  | some updatedPR => (.ok (updatedPR, newReviewer), s', drawn.2)
                  | none => (.error .prNotFound, s', drawn.2)

/-- service.ReassignReviewer on the fault-free storage path. -/
def ReassignReviewer (s : DBState) (prID oldReviewerID : String) (rng : Rng) :
    Except SvcErr (PR × String) × DBState × Rng :=
  reassignReviewerCore s prID oldReviewerID rng false

/-- service.DeactivateTeam: check team existence, then run the cascade
transaction; a transaction abort surfaces as an internal error with the
original state preserved. -/
def DeactivateTeam (s : DBState) (teamName : String) (rng : Rng) :
    Except SvcErr (List String × List Reassignment) × DBState :=
  if !(TeamExists s teamName) then (.error .teamNotFound, s)
  else
    match DeactivateTeamAndReassignPRs s teamName rng with
    | none => (.error .internal, s)
    | some (result, s', _) => (.ok (result.DeactivatedUsers, result.Reassignments), s')

/-- Store invariants enforced by the schema of 001_init.up.sql: primary keys
on users.user_id, pull_requests.pull_request_id and
pr_reviewers(pull_request_id, user_id), the foreign key from pr_reviewers
to pull_requests, and user ids being real identifiers (nonempty). -/
def WFState (s : DBState) : Prop :=
  (s.users.map (fun u => u.UserID)).Nodup ∧
  (s.prs.map (fun p => p.prId)).Nodup ∧
  s.prReviewers.Nodup ∧
  (∀ rv ∈ s.prReviewers, rv.1 ∈ s.prs.map (fun p => p.prId)) ∧
  (∀ u ∈ s.users, u.UserID ≠ "")

instance (s : DBState) : Decidable (WFState s) := by
  unfold WFState; infer_instance

/-! Concrete stores used to evaluate the engine on closed inputs. -/

/-- A deterministic randomness source that always draws 0. -/
def rngW : Rng := { seq := fun _ => 0, idx := 0 }

/-- One team T with active members a, b, c. -/
def sW4 : DBState :=
  { teams := ["T"],
    users := [⟨"a", "A", "T", true⟩, ⟨"b", "B", "T", true⟩, ⟨"c", "C", "T", true⟩],
    prs := [], prReviewers := [] }

/-- The pull request created on sW4. -/
def prW4 : PR :=
  { ID := "pr1", Name := "x", AuthorID := "a", Status := "OPEN",
    AssignedReviewers := ["b", "c"], CreatedAt := some 0, MergedAt := none }

/-- One team T whose only member is the author. -/
def sW5 : DBState :=
  { teams := ["T"], users := [⟨"a", "A", "T", true⟩], prs := [], prReviewers := [] }

/-- Team T with a, b, c active and an open PR by a reviewed by b. -/
def sW6 : DBState :=
  { teams := ["T"],
    users := [⟨"a", "A", "T", true⟩, ⟨"b", "B", "T", true⟩, ⟨"c", "C", "T", true⟩],
    prs := [⟨"pr1", "x", "a", "OPEN", some 0, none⟩],
    prReviewers := [("pr1", "b")] }

/-- The PR of sW6 before the reassignment. -/
def prW6 : PR :=
  { ID := "pr1", Name := "x", AuthorID := "a", Status := "OPEN",
    AssignedReviewers := ["b"], CreatedAt := some 0, MergedAt := none }

/-- The PR of sW6 after b is swapped for c. -/
def prW6' : PR :=
  { ID := "pr1", Name := "x", AuthorID := "a", Status := "OPEN",
    AssignedReviewers := ["c"], CreatedAt := some 0, MergedAt := none }

/-- A merged PR reviewed by b. -/
def sW7 : DBState :=
  { teams := ["T"],
    users := [⟨"a", "A", "T", true⟩, ⟨"b", "B", "T", true⟩],
    prs := [⟨"pr1", "x", "a", "MERGED", some 0, some 5⟩],
    prReviewers := [("pr1", "b")] }

/-- The merged PR of sW7. -/
def prW7 : PR :=
  { ID := "pr1", Name := "x", AuthorID := "a", Status := "MERGED",
    AssignedReviewers := ["b"], CreatedAt := some 0, MergedAt := some 5 }

/-- An open PR whose author a and reviewer b exhaust team T. -/
def sW7n : DBState :=
  { teams := ["T"],
    users := [⟨"a", "A", "T", true⟩, ⟨"b", "B", "T", true⟩],
    prs := [⟨"pr1", "x", "a", "OPEN", some 0, none⟩],
    prReviewers := [("pr1", "b")] }

/-- The open PR of sW7n. -/
def prW7n : PR :=
  { ID := "pr1", Name := "x", AuthorID := "a", Status := "OPEN",
    AssignedReviewers := ["b"], CreatedAt := some 0, MergedAt := none }

/-- One team T whose only member is inactive. -/
def sW9 : DBState :=
  { teams := ["T"], users := [⟨"a", "A", "T", false⟩], prs := [], prReviewers := [] }

/-- Teams T and U; the open PR by a (team U) is reviewed by b (team T). -/
def sW3 : DBState :=
  { teams := ["T", "U"],
    users := [⟨"a", "A", "U", true⟩, ⟨"b", "B", "T", true⟩, ⟨"c", "C", "U", true⟩],
    prs := [⟨"pr1", "x", "a", "OPEN", some 0, none⟩],
    prReviewers := [("pr1", "b")] }

/-- Teams A and B; the open PR by a (team A) has reviewers u1 (team B) and
u2 (team A): deactivating B leaves u2 a current reviewer that is not
deactivated. -/
def sC2 : DBState :=
  { teams := ["A", "B"],
    users := [⟨"a", "A", "A", true⟩, ⟨"u1", "U1", "B", true⟩, ⟨"u2", "U2", "A", true⟩],
    prs := [⟨"pr1", "x", "a", "OPEN", some 0, none⟩],
    prReviewers := [("pr1", "u1"), ("pr1", "u2")] }

/-- The affected-PR record the cascade builds for sC2. -/
def dC2 : prData := { prID := "pr1", authorID := "a", reviewers := ["u1"] }

/-- An affected PR with two stale reviewers, fed to the swap loop. -/
def prX : prData := { prID := "pr1", authorID := "a", reviewers := ["u1", "u2"] }

/-- A team lookup in which both stale reviewers belong to team T. -/
def utX : String → String := fun _ => "T"

/-- A candidate snapshot in which team T has the single active member x. -/
def acX : String → List String := fun t => if t == "T" then ["x"] else []

/-- The reviewer rows of the PR fed to the swap loop. -/
def rvsX : List (String × String) := [("pr1", "u1"), ("pr1", "u2")]

/-- Team T with active members a1 (author), b1 (reviewer), plus an open PR;
no user belongs to the empty-named team. -/
def sW10 : DBState :=
  { teams := ["T"],
    users := [⟨"a1", "A1", "T", true⟩, ⟨"b1", "B1", "T", true⟩],
    prs := [⟨"p1", "x", "a1", "OPEN", some 0, none⟩],
    prReviewers := [("p1", "b1")] }

/-- The open PR of sW10. -/
def prW10 : PR :=
  { ID := "p1", Name := "x", AuthorID := "a1", Status := "OPEN",
    AssignedReviewers := ["b1"], CreatedAt := some 0, MergedAt := none }

/-! Helper lemmas about the embedding. -/

lemma mem_insertSorted {a x : String} {l : List String} :
    a ∈ insertSorted x l ↔ a = x ∨ a ∈ l := by
  induction l with
  | nil => simp [insertSorted]
  | cons y ys ih =>
      simp only [insertSorted]
      split
      · rw [List.mem_cons, ih, List.mem_cons]; tauto
      · simp only [List.mem_cons]

lemma length_insertSorted (x : String) (l : List String) :
    (insertSorted x l).length = l.length + 1 := by
  induction l with
  | nil => rfl
  | cons y ys ih =>
      simp only [insertSorted]
      split
      · simp [ih]
      · simp

lemma mem_sortStrings {a : String} {l : List String} :
    a ∈ sortStrings l ↔ a ∈ l := by
  induction l with
  | nil => simp [sortStrings]
  | cons x xs ih => simp [sortStrings, mem_insertSorted, ih]

lemma length_sortStrings (l : List String) :
    (sortStrings l).length = l.length := by
  induction l with
  | nil => rfl
  | cons x xs ih => simp [sortStrings, length_insertSorted, ih]

lemma mem_of_mem_swapL {x : String} {l : List String} {i j : Nat}
    (h : x ∈ swapL l i j) : x ∈ l := by
  unfold swapL at h
  split at h
  case h_1 a b ha hb =>
    have hb' : b ∈ l := by
      obtain ⟨hlt, rfl⟩ := List.getElem?_eq_some.mp hb
      exact List.getElem_mem hlt
    have ha' : a ∈ l := by
      obtain ⟨hlt, rfl⟩ := List.getElem?_eq_some.mp ha
      exact List.getElem_mem hlt
    rcases List.mem_or_eq_of_mem_set h with h1 | h1
    · rcases List.mem_or_eq_of_mem_set h1 with h2 | h2
      · exact h2
      · exact h2 ▸ hb'
    · exact h1 ▸ ha'
  case h_2 => exact h

lemma mem_of_mem_shuffleFrom {x : String} :
    ∀ {i : Nat} {l : List String} {rng : Rng},
      x ∈ (shuffleFrom i l rng).1 → x ∈ l := by
  intro i
  induction i with
  | zero => intro l rng h; exact h
  | succ i ih =>
      intro l rng h
      simp only [shuffleFrom] at h
      exact mem_of_mem_swapL (ih h)

lemma mem_of_mem_pickRandomReviewers {x : String} {c : List String} {n : Nat}
    {rng : Rng} (h : x ∈ (pickRandomReviewers c n rng).1) : x ∈ c := by
  unfold pickRandomReviewers at h
  split at h
  · exact h
  · exact mem_of_mem_shuffleFrom (List.mem_of_mem_take h)

lemma length_pickRandomReviewers_le (c : List String) (n : Nat) (rng : Rng) :
    (pickRandomReviewers c n rng).1.length ≤ n := by
  unfold pickRandomReviewers
  split
  case isTrue h => exact h
  case isFalse h => simp [List.length_take]

lemma contains_iff {α : Type} [BEq α] [LawfulBEq α] {l : List α} {a : α} :
    l.contains a = true ↔ a ∈ l := List.elem_iff

lemma contains_eq_false_iff {α : Type} [BEq α] [LawfulBEq α] {l : List α} {a : α} :
    l.contains a = false ↔ a ∉ l := by
  rw [← Bool.not_eq_true, not_iff_not]
  exact contains_iff

lemma mem_GetActiveTeamMembers {s : DBState} {t x : String} {excl : List String} :
    x ∈ GetActiveTeamMembers s t excl ↔
      ((∃ u ∈ s.users, u.UserID = x ∧ u.TeamName = t ∧ u.IsActive = true) ∧ x ∉ excl) := by
  unfold GetActiveTeamMembers
  simp only [List.mem_filter, mem_sortStrings, List.mem_map, Bool.not_eq_true',
    contains_eq_false_iff, Bool.and_eq_true, beq_iff_eq]
  constructor
  · rintro ⟨⟨u, ⟨hu, ht, ha⟩, rfl⟩, hx⟩
    exact ⟨⟨u, hu, rfl, ht, ha⟩, hx⟩
  · rintro ⟨⟨u, hu, rfl, ht, ha⟩, hx⟩
    exact ⟨⟨u, ⟨hu, ht, ha⟩, rfl⟩, hx⟩

lemma getD_mem_of_lt {l : List String} {n : Nat} {d : String} (h : n < l.length) :
    l.getD n d ∈ l := by
  unfold List.getD
  rw [List.get?_eq_getElem?, List.getElem?_eq_getElem h]
  simp only [Option.getD_some]
  exact List.getElem_mem h

lemma insertAllReviewers_eq {prID : String} :
    ∀ {l : List String} {rvs rvs' : List (String × String)},
      insertAllReviewers rvs prID l = some rvs' →
      rvs' = rvs ++ l.map (fun x => (prID, x)) := by
  intro l
  induction l with
  | nil =>
      intro rvs rvs' h
      simp [insertAllReviewers] at h
      simp [h.symm]
  | cons x xs ih =>
      intro rvs rvs' h
      by_cases hm : (prID, x) ∈ rvs
      · simp [insertAllReviewers, insertPrReviewer, hm] at h
      · simp [insertAllReviewers, insertPrReviewer, hm] at h
        have := ih h
        simp [this]

lemma mem_revsRaw {s : DBState} {prID x : String} :
    x ∈ revsRaw s prID ↔ (prID, x) ∈ s.prReviewers := by
  unfold revsRaw
  simp only [List.mem_map, List.mem_filter]
  constructor
  · rintro ⟨⟨a, b⟩, ⟨hmem, hfst⟩, rfl⟩
    simp only [beq_iff_eq] at hfst
    simpa [hfst] using hmem
  · intro h
    exact ⟨(prID, x), ⟨h, by simp⟩, rfl⟩

lemma map_snd_filter_snd (p : String → Bool) (l : List (String × String)) :
    (l.filter (fun rv => p rv.2)).map (fun rv => rv.2) =
      (l.map (fun rv => rv.2)).filter p := by
  induction l with
  | nil => rfl
  | cons rv rest ih =>
      by_cases h : p rv.2
      · simp [List.filter_cons, h, ih]
      · simp [List.filter_cons, h, ih]

lemma nodup_revsRaw {s : DBState} (prID : String) (h : s.prReviewers.Nodup) :
    (revsRaw s prID).Nodup := by
  unfold revsRaw
  refine List.Nodup.map_on ?_ (h.filter _)
  rintro ⟨a, b⟩ hab ⟨c, d⟩ hcd (he : b = d)
  rw [List.mem_filter] at hab hcd
  have ha : a = prID := by simpa [beq_iff_eq] using hab.2
  have hc : c = prID := by simpa [beq_iff_eq] using hcd.2
  simp [ha, hc, he]

lemma length_filter_ne_of_nodup {l : List String} {a : String}
    (hnd : l.Nodup) (hmem : a ∈ l) :
    (l.filter (fun x => !(x == a))).length + 1 = l.length := by
  have he : l.erase a = l.filter (fun x => x != a) := hnd.erase_eq_filter a
  have hl : (l.erase a).length = l.length - 1 := List.length_erase_of_mem hmem
  have hpos : 0 < l.length := List.length_pos_of_mem hmem
  have : (l.filter (fun x => x != a)).length = l.length - 1 := he ▸ hl
  have hbne : (fun x => !(x == a)) = (fun x => x != a) := by
    funext x; simp [bne]
  rw [hbne, this]
  omega

/-! Lemmas about the deactivation cascade. -/

lemma doSwaps_empty_pools (pr : prData) (ut : String → String)
    (ac : String → List String) (hpool : ∀ old ∈ pr.reviewers, ac (ut old) = []) :
    ∀ (pending : List String), (∀ o ∈ pending, o ∈ pr.reviewers) →
      ∀ (rvs : List (String × String)) (recs : List Reassignment) (rng : Rng),
      (∀ r ∈ recs, r.new = "") →
      ∃ rvs' recs', doSwaps pr ut ac pending rvs recs rng = some (rvs', recs', rng) ∧
        ∀ r ∈ recs', r.new = "" := by
  intro pending
  induction pending with
  | nil =>
      intro _ rvs recs rng hrecs
      exact ⟨rvs, recs, rfl, hrecs⟩
  | cons old rest ih =>
      intro hsub rvs recs rng hrecs
      have hc : ac (ut old) = [] := hpool old (hsub old (by simp))
      have hrecs' : ∀ r ∈ recs ++ [⟨pr.prID, old, ""⟩], r.new = "" := by
        intro r hr
        rcases List.mem_append.mp hr with h | h
        · exact hrecs r h
        · simp at h; simp [h]
      obtain ⟨rvs', recs', heq, hall⟩ :=
        ih (fun o ho => hsub o (by simp [ho]))
          (rvs.filter (fun rv => !(rv.1 == pr.prID && rv.2 == old)))
          (recs ++ [⟨pr.prID, old, ""⟩]) rng hrecs'
      refine ⟨rvs', recs', ?_, hall⟩
      simp only [doSwaps, hc, List.filter_nil, List.length_nil]
      rw [if_neg (by omega : ¬ (0 : Nat) < 0)]
      exact heq

lemma reassignReviewers_empty_pools (ut : String → String)
    (ac : String → List String) :
    ∀ (affected : List prData),
      (∀ pr ∈ affected, ∀ old ∈ pr.reviewers, ac (ut old) = []) →
      ∀ (rvs : List (String × String)) (recs : List Reassignment) (rng : Rng),
      (∀ r ∈ recs, r.new = "") →
      ∃ rvs' recs',
        reassignReviewers ut ac affected rvs recs rng = some (rvs', recs', rng) ∧
        ∀ r ∈ recs', r.new = "" := by
  intro affected
  induction affected with
  | nil =>
      intro _ rvs recs rng hrecs
      exact ⟨rvs, recs, rfl, hrecs⟩
  | cons pr rest ih =>
      intro haff rvs recs rng hrecs
      obtain ⟨rvs1, recs1, heq1, hall1⟩ :=
        doSwaps_empty_pools pr ut ac (haff pr (by simp)) pr.reviewers
          (fun o ho => ho) rvs recs rng hrecs
      obtain ⟨rvs2, recs2, heq2, hall2⟩ :=
        ih (fun p hp => haff p (by simp [hp])) rvs1 recs1 rng hall1
      refine ⟨rvs2, recs2, ?_, hall2⟩
      simp only [reassignReviewers, heq1]
      exact heq2

/-- Row-level effect of the deactivation UPDATE: user id and team are
untouched. -/
lemma applyDeactivation_fields (teamName : String) (u : User) :
    (applyDeactivation teamName u).UserID = u.UserID ∧
    (applyDeactivation teamName u).TeamName = u.TeamName := by
  unfold applyDeactivation
  split <;> simp

lemma find?_eq_of_nodup_ids :
    ∀ {l : List User}, (l.map (fun u => u.UserID)).Nodup →
      ∀ {u : User}, u ∈ l → l.find? (fun v => v.UserID == u.UserID) = some u := by
  intro l
  induction l with
  | nil => intro _ u hu; simp at hu
  | cons v rest ih =>
      intro hnd u hu
      simp only [List.map_cons, List.nodup_cons] at hnd
      rcases List.mem_cons.mp hu with rfl | hu'
      · simp [List.find?]
      · have hmem2 : u.UserID ∈ rest.map (fun w => w.UserID) :=
          List.mem_map.mpr ⟨u, hu', rfl⟩
        have hne : (v.UserID == u.UserID) = false := by
          rw [beq_eq_false_iff_ne]
          intro hbe
          rw [hbe] at hnd
          exact hnd.1 hmem2
        simp only [List.find?, hne]
        exact ih hnd.2 hu'

lemma deactivateTeamUsers_users (s : DBState) (teamName : String) :
    (deactivateTeamUsers s teamName).1.users =
      s.users.map (applyDeactivation teamName) := rfl

lemma getUserTeams_deactivated (s : DBState) (teamName : String)
    (hnd : (s.users.map (fun u => u.UserID)).Nodup) :
    ∀ uid ∈ (deactivateTeamUsers s teamName).2,
      getUserTeams (deactivateTeamUsers s teamName).1
        (deactivateTeamUsers s teamName).2 uid = teamName := by
  intro uid hmem
  have hmem' := hmem
  simp only [deactivateTeamUsers, List.mem_map, List.mem_filter] at hmem'
  obtain ⟨u, ⟨hu, hcond⟩, rfl⟩ := hmem'
  have hteam : u.TeamName = teamName := by
    simp only [Bool.and_eq_true, beq_iff_eq] at hcond
    exact hcond.1
  unfold getUserTeams
  rw [if_pos (contains_iff.mpr hmem)]
  have hfind : (deactivateTeamUsers s teamName).1.users.find?
      (fun v => v.UserID == u.UserID) = some (applyDeactivation teamName u) := by
    rw [deactivateTeamUsers_users, List.find?_map]
    have hcomp : ((fun v => v.UserID == u.UserID) ∘ applyDeactivation teamName) =
        (fun w : User => w.UserID == u.UserID) := by
      funext w
      simp only [Function.comp_apply, (applyDeactivation_fields teamName w).1]
    rw [hcomp, find?_eq_of_nodup_ids hnd hu]
    rfl
  rw [hfind]
  show (applyDeactivation teamName u).TeamName = teamName
  rw [(applyDeactivation_fields teamName u).2]
  exact hteam

lemma getActiveUsersByTeam_deactivated (s : DBState) (teamName : String) :
    getActiveUsersByTeam (deactivateTeamUsers s teamName).1 teamName = [] := by
  unfold getActiveUsersByTeam
  have hfil : (deactivateTeamUsers s teamName).1.users.filter
      (fun u => u.IsActive && u.TeamName == teamName) = [] := by
    rw [deactivateTeamUsers_users, List.filter_eq_nil_iff]
    intro v hv
    rw [List.mem_map] at hv
    obtain ⟨u, _, rfl⟩ := hv
    unfold applyDeactivation
    by_cases hcond : (u.TeamName == teamName && u.IsActive) = true
    · rw [if_pos hcond]; simp
    · rw [if_neg hcond]
      simp only [Bool.and_eq_true, beq_iff_eq] at hcond
      simp only [Bool.and_eq_true, beq_iff_eq]
      rintro ⟨ha, hb⟩
      exact hcond ⟨hb, ha⟩
  rw [hfil]
  rfl

lemma getAffectedPRs_stale_sub (s : DBState) (deactivated : List String) :
    ∀ pr ∈ getAffectedPRs s deactivated, ∀ old ∈ pr.reviewers, old ∈ deactivated := by
  intro pr hpr old hold
  simp only [getAffectedPRs, List.mem_filterMap] at hpr
  obtain ⟨p, _, hp⟩ := hpr
  split at hp
  · exact absurd hp (by simp)
  · have hp' := Option.some.inj hp
    rw [← hp'] at hold
    simp only [List.mem_dedup, List.mem_map, List.mem_filter] at hold
    obtain ⟨rv, ⟨_, hcond⟩, rfl⟩ := hold
    simp only [Bool.and_eq_true] at hcond
    exact contains_iff.mp hcond.2

/-- In every cascade transaction the candidate pool of every stale reviewer
is the post-deactivation active-member list of the deactivated team, which
is empty, so no per-swap record carries a replacement. -/
lemma cascade_records_new_empty (s : DBState) (teamName : String) (rng : Rng)
    (hnd : (s.users.map (fun u => u.UserID)).Nodup) :
    ∀ r ∈ cascadeReassignments (DeactivateTeamAndReassignPRs s teamName rng),
      r.new = "" := by
  intro r hr
  simp only [DeactivateTeamAndReassignPRs] at hr
  by_cases hemp : (deactivateTeamUsers s teamName).2.isEmpty = true
  · rw [if_pos hemp] at hr
    simp [cascadeReassignments] at hr
  · rw [if_neg hemp] at hr
    have hpool : ∀ pr ∈ getAffectedPRs (deactivateTeamUsers s teamName).1
        (deactivateTeamUsers s teamName).2, ∀ old ∈ pr.reviewers,
        getActiveUsersByTeam (deactivateTeamUsers s teamName).1
          (getUserTeams (deactivateTeamUsers s teamName).1
            (deactivateTeamUsers s teamName).2 old) = [] := by
      intro pr hpr old hold
      have hd := getAffectedPRs_stale_sub _ _ pr hpr old hold
      rw [getUserTeams_deactivated s teamName hnd old hd]
      exact getActiveUsersByTeam_deactivated s teamName
    obtain ⟨rvs', recs', heq, hall⟩ :=
      reassignReviewers_empty_pools _ _ _ hpool
        (deactivateTeamUsers s teamName).1.prReviewers [] rng (by simp)
    rw [heq] at hr
    exact hall r hr

/-! Lemmas about pull-request creation. -/

lemma pickRandomReviewers_nil (n : Nat) (rng : Rng) :
    pickRandomReviewers [] n rng = ([], rng) := by
  unfold pickRandomReviewers
  rw [if_pos (by simp)]

lemma revsRaw_eq_nil_of_fresh (s : DBState) (prID : String)
    (hfk : ∀ rv ∈ s.prReviewers, rv.1 ∈ s.prs.map (fun p => p.prId))
    (hne : PRExists s prID = false) :
    s.prReviewers.filter (fun rv => rv.1 == prID) = [] := by
  rw [List.filter_eq_nil_iff]
  intro rv hrv
  have hin := hfk rv hrv
  rw [List.mem_map] at hin
  obtain ⟨p, hp, hpid⟩ := hin
  have hpe : (p.prId == prID) = false := by
    rw [beq_eq_false_iff_ne]
    intro he
    have hall : ∀ q ∈ s.prs, ¬(q.prId == prID) = true := List.any_eq_false.mp hne
    exact hall p hp (by rw [he]; exact beq_self_eq_true prID)
  rw [← hpid]
  simp [hpe]

lemma GetPR_of_new_row (s : DBState) (row : PRRow) (rvs' : List (String × String))
    (hne : PRExists s row.prId = false) :
    GetPR { s with prs := s.prs ++ [row], prReviewers := rvs' } row.prId =
      some { ID := row.prId, Name := row.prName, AuthorID := row.authorId,
             Status := row.status,
             AssignedReviewers := sortStrings ((rvs'.filter
               (fun rv => rv.1 == row.prId)).map (fun rv => rv.2)),
             CreatedAt := row.createdAt, MergedAt := row.mergedAt } := by
  have hfn : s.prs.find? (fun p => p.prId == row.prId) = none := by
    rw [List.find?_eq_none]
    intro p hp
    exact List.any_eq_false.mp hne p hp
  have hfind : ({ s with prs := s.prs ++ [row], prReviewers := rvs' } : DBState).prs.find?
      (fun p => p.prId == row.prId) = some row := by
    show (s.prs ++ [row]).find? (fun p => p.prId == row.prId) = some row
    rw [List.find?_append, hfn]
    simp [List.find?]
  unfold GetPR
  rw [hfind]
  rfl

lemma CreatePR_state (s : DBState) (pr : PR) (now : Nat) (s' : DBState)
    (hne : PRExists s pr.ID = false)
    (hcr : CreatePR s pr now = some s') :
    s' = { s with
      prs := s.prs ++ [{ prId := pr.ID, prName := pr.Name, authorId := pr.AuthorID,
                         status := "OPEN", createdAt := some now, mergedAt := none }],
      prReviewers := s.prReviewers ++
        pr.AssignedReviewers.map (fun x => (pr.ID, x)) } := by
  unfold CreatePR at hcr
  have hne' : (s.prs.any fun p => p.prId == pr.ID) = false := hne
  rw [hne'] at hcr
  simp only [Bool.false_eq_true, if_false] at hcr
  cases heq : insertAllReviewers s.prReviewers pr.ID pr.AssignedReviewers with
  | none => rw [heq] at hcr; exact absurd hcr (by simp)
  | some rvs' =>
      rw [heq] at hcr
      have hr := insertAllReviewers_eq heq
      have := Option.some.inj hcr
      rw [← this, hr]

/-! C8: idempotent merge. -/

/-- C8 (confirmed): for every pull request already in status MERGED,
MergePullRequest returns the current PR unchanged (same mergedAt, same
reviewer set), reports no error, and leaves the store untouched. -/
theorem mergePullRequest_idempotent (s : DBState) (prID : String) (now : Nat)
    (pr : PR) (hpr : GetPR s prID = some pr) (hm : pr.Status = "MERGED") :
    MergePullRequest s prID now = (Except.ok pr, s) := by
  unfold MergePullRequest
  rw [hpr]
  simp [hm]

/-- C8 witness: merging the already merged PR of sW7 returns it unchanged. -/
theorem mergePullRequest_idempotent_witness :
    GetPR sW7 "pr1" = some prW7 ∧ prW7.Status = "MERGED" ∧
      MergePullRequest sW7 "pr1" 9 = (Except.ok prW7, sW7) :=
  ⟨by decide, by decide, mergePullRequest_idempotent sW7 "pr1" 9 prW7 (by decide) (by decide)⟩

/-! C7: failure modes of ReassignReviewer. -/

/-- C7 (confirmed): ReassignReviewer on a MERGED pull request fails with
prMerged, and on an open pull request whose candidate pool minus the
exclusion set is empty it fails with noCandidate; in both cases the store,
hence the reviewer set with the old reviewer still assigned, is unchanged. -/
theorem reassignReviewer_failure_modes (s : DBState) (prID old : String)
    (rng : Rng) (pr : PR) (hpr : GetPR s prID = some pr) :
    (pr.Status = "MERGED" →
      ReassignReviewer s prID old rng = (Except.error SvcErr.prMerged, s, rng)) ∧
    (pr.Status ≠ "MERGED" → old ∈ pr.AssignedReviewers →
      ∀ oldU, GetUser s old = some oldU →
        GetActiveTeamMembers s oldU.TeamName (pr.AssignedReviewers ++ [pr.AuthorID]) = [] →
        ReassignReviewer s prID old rng = (Except.error SvcErr.noCandidate, s, rng)) := by
  constructor
  · intro hm
    unfold ReassignReviewer reassignReviewerCore
    rw [hpr]
    simp [hm]
  · intro hm hass oldU holdU hcand
    have h1 : (pr.Status == "MERGED") = false := by
      rw [beq_eq_false_iff_ne]; exact hm
    have h2 : pr.AssignedReviewers.contains old = true := contains_iff.mpr hass
    have h3 : GetUserWithFault s old false = .found oldU := by
      unfold GetUserWithFault
      rw [if_neg (by simp)]
      unfold GetUser at holdU
      rw [holdU]
    unfold ReassignReviewer reassignReviewerCore
    rw [hpr]
    simp only [h1, Bool.false_eq_true, if_false, h2, Bool.not_true, h3, hcand,
      List.length_nil]
    simp

/-- C7 witness: reassigning on the merged PR of sW7 fails with prMerged, and
reassigning b on sW7n, where a and b exhaust team T, fails with
noCandidate; both leave the store unchanged. -/
theorem reassignReviewer_failure_modes_witness :
    (ReassignReviewer sW7 "pr1" "b" rngW = (Except.error SvcErr.prMerged, sW7, rngW)) ∧
    (ReassignReviewer sW7n "pr1" "b" rngW =
      (Except.error SvcErr.noCandidate, sW7n, rngW)) := by
  constructor
  · exact (reassignReviewer_failure_modes sW7 "pr1" "b" rngW prW7 (by decide)).1
      (by decide)
  · exact (reassignReviewer_failure_modes sW7n "pr1" "b" rngW prW7n (by decide)).2
      (by decide) (by decide) ⟨"b", "B", "T", true⟩ (by decide) (by decide)

/-! C5: exhaustion policy of CreatePullRequest. -/

/-- C5 (confirmed): when the author's team has no eligible active non-author
member, CreatePullRequest still succeeds and the created PR carries an
empty reviewer set. -/
theorem createPullRequest_exhaustion_ok (s : DBState) (prID prName authorID : String)
    (rng : Rng) (now : Nat) (author : User)
    (hwf : WFState s) (hne : PRExists s prID = false)
    (hau : GetUser s authorID = some author)
    (hcand : GetActiveTeamMembers s author.TeamName [authorID] = []) :
    ∃ pr, (CreatePullRequest s prID prName authorID rng now).1 = Except.ok pr ∧
      pr.AssignedReviewers = [] := by
  have hcr : CreatePR s
      { ID := prID, Name := prName, AuthorID := authorID, Status := "OPEN",
        AssignedReviewers := [], CreatedAt := none, MergedAt := none } now =
      some { s with prs := s.prs ++
        [{ prId := prID, prName := prName, authorId := authorID, status := "OPEN",
           createdAt := some now, mergedAt := none }] } := by
    unfold CreatePR insertAllReviewers
    have hne' : (s.prs.any fun p => p.prId == prID) = false := hne
    rw [hne']
    simp
  unfold CreatePullRequest
  rw [hne]
  simp only [Bool.false_eq_true, if_false, hau, hcand, pickRandomReviewers_nil, hcr]
  have hget := GetPR_of_new_row s
    { prId := prID, prName := prName, authorId := authorID,
      status := "OPEN", createdAt := some now, mergedAt := none }
    s.prReviewers hne
  rw [revsRaw_eq_nil_of_fresh s prID hwf.2.2.2.1 hne] at hget
  simp only [List.map_nil] at hget
  rw [hget]
  exact ⟨_, rfl, rfl⟩

/-- C5 witness: on sW5, whose only team member is the author, the PR is
created with an empty reviewer set. -/
theorem createPullRequest_exhaustion_ok_witness :
    WFState sW5 ∧
    ∃ pr, (CreatePullRequest sW5 "pr1" "x" "a" rngW 0).1 = Except.ok pr ∧
      pr.AssignedReviewers = [] :=
  ⟨by decide, createPullRequest_exhaustion_ok sW5 "pr1" "x" "a" rngW 0
    ⟨"a", "A", "T", true⟩ (by decide) (by decide) (by decide) (by decide)⟩

/-! C9: DeactivateTeam on a missing team and on a team with no active
members. -/

lemma deactivateTeamUsers_no_active (s : DBState) (teamName : String)
    (h : ∀ u ∈ s.users, u.TeamName = teamName → u.IsActive = false) :
    deactivateTeamUsers s teamName = (s, []) := by
  have hfil : s.users.filter (fun u => u.TeamName == teamName && u.IsActive) = [] := by
    rw [List.filter_eq_nil_iff]
    intro u hu
    simp only [Bool.and_eq_true, beq_iff_eq, not_and]
    intro ht
    rw [h u hu ht]
    simp
  have hmap : s.users.map (applyDeactivation teamName) = s.users := by
    have hid : ∀ u ∈ s.users, applyDeactivation teamName u = u := by
      intro u hu
      unfold applyDeactivation
      rw [if_neg]
      simp only [Bool.and_eq_true, beq_iff_eq, not_and]
      intro ht
      rw [h u hu ht]
      simp
    rw [List.map_congr_left hid]
    simp
  unfold deactivateTeamUsers
  rw [hfil, hmap]
  rfl

/-- C9 (confirmed): DeactivateTeam fails with teamNotFound exactly when no
team with that name exists; when the team exists but has no active
members, the store is left untouched and the deactivated-users and
reassignment lists both come back empty. -/
theorem deactivateTeam_notfound_and_empty (s : DBState) (teamName : String)
    (rng : Rng) (hwf : WFState s) :
    ((DeactivateTeam s teamName rng).1 = Except.error SvcErr.teamNotFound ↔
      teamName ∉ s.teams) ∧
    (teamName ∈ s.teams →
      (∀ u ∈ s.users, u.TeamName = teamName → u.IsActive = false) →
      DeactivateTeam s teamName rng = (Except.ok ([], []), s)) := by
  constructor
  · constructor
    · intro herr
      by_contra hmem
      have hex : TeamExists s teamName = true := contains_iff.mpr hmem
      unfold DeactivateTeam at herr
      rw [hex] at herr
      simp only [Bool.not_true, Bool.false_eq_true, if_false] at herr
      cases hd : DeactivateTeamAndReassignPRs s teamName rng with
      | none => rw [hd] at herr; simp at herr
      | some trip =>
          obtain ⟨res, s', rng'⟩ := trip
          rw [hd] at herr
          simp at herr
    · intro hnot
      have hex : TeamExists s teamName = false := contains_eq_false_iff.mpr hnot
      unfold DeactivateTeam
      rw [hex]
      simp
  · intro hmem hforall
    have hex : TeamExists s teamName = true := contains_iff.mpr hmem
    have hstep := deactivateTeamUsers_no_active s teamName hforall
    unfold DeactivateTeam DeactivateTeamAndReassignPRs
    rw [hex]
    simp only [Bool.not_true, Bool.false_eq_true, if_false, hstep]
    simp [cascadeReassignments]

/-- C9 witness: team T of sW9 exists with only an inactive member, so the
call returns empty lists and an untouched store; a missing team Z yields
teamNotFound. -/
theorem deactivateTeam_notfound_and_empty_witness :
    WFState sW9 ∧
    ((DeactivateTeam sW9 "Z" rngW).1 = Except.error SvcErr.teamNotFound ↔
      "Z" ∉ sW9.teams) ∧
    DeactivateTeam sW9 "T" rngW = (Except.ok ([], []), sW9) :=
  ⟨by decide,
   (deactivateTeam_notfound_and_empty sW9 "Z" rngW (by decide)).1,
   (deactivateTeam_notfound_and_empty sW9 "T" rngW (by decide)).2
     (by decide) (by decide)⟩

/-! C3: the cascade never inserts a replacement. -/

/-- C3 (confirmed): every per-swap record returned by
DeactivateTeamAndReassignPRs has an empty newReviewerId: each deactivated
user's candidate pool is the post-deactivation active-member list of the
team just deactivated, which is empty, so the cascade only drops stale
reviewers and never inserts a replacement. -/
theorem cascade_records_have_empty_new (s : DBState) (teamName : String)
    (rng : Rng) (hwf : WFState s) :
    ∀ r ∈ cascadeReassignments (DeactivateTeamAndReassignPRs s teamName rng),
      r.new = "" :=
  cascade_records_new_empty s teamName rng hwf.1

/-- C3 witness: on sW3 the cascade for team T drops reviewer b from pr1 and
the single record carries an empty replacement. -/
theorem cascade_records_have_empty_new_witness :
    WFState sW3 ∧
    cascadeReassignments (DeactivateTeamAndReassignPRs sW3 "T" rngW) =
      [{ pr_id := "pr1", old := "b", new := "" }] ∧
    ({ pr_id := "pr1", old := "b", new := "" } : Reassignment).new = "" := by
  refine ⟨by decide, by decide, ?_⟩
  exact cascade_records_have_empty_new sW3 "T" rngW (by decide) _ (by decide)

/-! C1: no-duplicate replacements in one cascade. -/

/-- C1 counterexample: in the swap loop, one PR with two stale reviewers and
a single eligible candidate x computes the same filtered candidate list
for both swaps, because the exclusion set is rebuilt from the author and
the original reviewer snapshot and never contains the first swap's
replacement; both swaps therefore choose x, and the second insert violates
the pr_reviewers primary key, aborting the cascade transaction (none)
rather than producing two distinct replacements. -/
theorem cascade_duplicate_replacement_counterexample :
    ((acX (utX "u1")).filter
      (fun c => !((excludeFor prX.authorID prX.reviewers).contains c)) = ["x"]) ∧
    ((acX (utX "u2")).filter
      (fun c => !((excludeFor prX.authorID prX.reviewers).contains c)) = ["x"]) ∧
    "x" ∉ excludeFor prX.authorID prX.reviewers ∧
    reassignReviewers utX acX [prX] rvsX [] rngW = none := by
  refine ⟨by decide, by decide, by decide, ?_⟩
  rfl

/-- C1 (corrected, amended): in every cascade run of DeactivateTeam no
replacement reviewer is ever inserted at all (every pool is empty after
the deactivation), so no pull request receives two replacements and in
particular never the same replacement twice; the exclusion set of a swap
is built from the original reviewer snapshot and does not reflect earlier
swaps' replacements. -/
theorem cascade_no_duplicate_amended (s : DBState) (teamName : String) (rng : Rng)
    (hwf : WFState s) (out : List String × List Reassignment)
    (hok : (DeactivateTeam s teamName rng).1 = Except.ok out) :
    out.2.filter (fun r => r.new != "") = [] := by
  have hall : ∀ r ∈ out.2, r.new = "" := by
    have hrec := cascade_records_new_empty s teamName rng hwf.1
    unfold DeactivateTeam at hok
    cases hex : TeamExists s teamName with
    | false => rw [hex] at hok; simp at hok
    | true =>
        rw [hex] at hok
        simp only [Bool.not_true, Bool.false_eq_true, if_false] at hok
        cases hd : DeactivateTeamAndReassignPRs s teamName rng with
        | none => rw [hd] at hok; simp at hok
        | some trip =>
            obtain ⟨res, s', rng'⟩ := trip
            rw [hd] at hok
            simp only [Except.ok.injEq] at hok
            rw [hd] at hrec
            intro r hr
            apply hrec
            show r ∈ cascadeReassignments (some (res, s', rng'))
            rw [← hok] at hr
            exact hr
  rw [List.filter_eq_nil_iff]
  intro r hr
  simp [hall r hr]

/-- C1 witness for the amended statement: the cascade on sW3 returns one
record and its replacement field is empty. -/
theorem cascade_no_duplicate_amended_witness :
    WFState sW3 ∧
    (DeactivateTeam sW3 "T" rngW).1 =
      Except.ok (["b"], [{ pr_id := "pr1", old := "b", new := "" }]) ∧
    ([{ pr_id := "pr1", old := "b", new := "" }] : List Reassignment).filter
      (fun r => r.new != "") = [] := by
  refine ⟨by decide, rfl, ?_⟩
  exact cascade_no_duplicate_amended sW3 "T" rngW (by decide)
    (["b"], [{ pr_id := "pr1", old := "b", new := "" }]) rfl

/-! C2: what the cascade records per affected PR. -/

/-- C2 counterexample: deactivating team B on sC2 deactivates exactly u1;
the cascade's record for pr1 lists only the stale reviewer u1 while the
PR's full current reviewer list is [u1, u2], and the swap's exclusion set
(author plus recorded list) does not contain the current reviewer u2. -/
theorem cascade_affected_prs_counterexample :
    (deactivateTeamUsers sC2 "B").2 = ["u1"] ∧
    getAffectedPRs (deactivateTeamUsers sC2 "B").1 ["u1"] = [dC2] ∧
    revsRaw (deactivateTeamUsers sC2 "B").1 "pr1" = ["u1", "u2"] ∧
    "u2" ∉ excludeFor dC2.authorID dC2.reviewers := by
  refine ⟨by decide, by decide, by decide, by decide⟩

/-- C2 (corrected, amended): an affected-PR record lists exactly the PR's
current reviewers that belong to the deactivated set; current reviewers
that are not being deactivated are not recorded, and hence not part of the
exclusion set the swap derives from the record. -/
theorem cascade_affected_prs_stale_only (s : DBState) (deactivated : List String)
    (d : prData) (hd : d ∈ getAffectedPRs s deactivated) :
    ∀ x, x ∈ d.reviewers ↔ ((d.prID, x) ∈ s.prReviewers ∧ x ∈ deactivated) := by
  intro x
  simp only [getAffectedPRs, List.mem_filterMap] at hd
  obtain ⟨p, hp, hsome⟩ := hd
  split at hsome
  · exact absurd hsome (by simp)
  · have hd' := Option.some.inj hsome
    rw [← hd']
    simp only [List.mem_dedup, List.mem_map, List.mem_filter]
    constructor
    · rintro ⟨rv, ⟨hmem, hcond⟩, rfl⟩
      simp only [Bool.and_eq_true, beq_iff_eq] at hcond
      constructor
      · have : rv = (p.prId, rv.2) := by
          rw [← hcond.1]
        rw [← this]
        exact hmem
      · exact contains_iff.mp hcond.2
    · rintro ⟨hmem, hdeact⟩
      refine ⟨(p.prId, x), ⟨hmem, ?_⟩, rfl⟩
      have hcx : deactivated.contains x = true := contains_iff.mpr hdeact
      simp [hcx, hdeact]

/-- C2 witness for the amended statement: on sC2 with deactivated set [u1],
the record for pr1 contains u1 and omits the non-deactivated current
reviewer u2. -/
theorem cascade_affected_prs_stale_only_witness :
    dC2 ∈ getAffectedPRs sC2 ["u1"] ∧
    ("u1" ∈ dC2.reviewers ↔ (("pr1", "u1") ∈ sC2.prReviewers ∧ "u1" ∈ ["u1"])) ∧
    ("u2" ∈ dC2.reviewers ↔ (("pr1", "u2") ∈ sC2.prReviewers ∧ "u2" ∈ ["u1"])) :=
  ⟨by decide,
   cascade_affected_prs_stale_only sC2 ["u1"] dC2 (by decide) "u1",
   cascade_affected_prs_stale_only sC2 ["u1"] dC2 (by decide) "u2"⟩

/-! C10: the unhandled storage-error branch of ReassignReviewer. -/

/-- C10 counterexample: with a non-not-found storage failure injected at the
old-reviewer lookup, GetUser yields the zero-valued user next to the error
(a present value, not a nil pointer), and ReassignReviewer neither panics
nor propagates the error: it continues and finishes with the typed
noCandidate failure for the empty team name, store untouched. -/
theorem reassign_getUser_fault_counterexample :
    GetUserWithFault sW10 "b1" true =
      GetUserOutcome.scanFailed
        { UserID := "", Username := "", TeamName := "", IsActive := false } ∧
    reassignReviewerCore sW10 "p1" "b1" rngW true =
      (Except.error SvcErr.noCandidate, sW10, rngW) := by
  exact ⟨rfl, rfl⟩

/-- C10 (corrected, amended): when the old-reviewer lookup fails with a
non-not-found error, ReassignReviewer silently discards the error and
continues with the zero-valued user returned alongside it — a present
value, so no nil dereference or panic — drawing candidates for the empty
team name; when that pool minus the exclusion set is empty, it returns the
typed noCandidate failure with the store untouched, never propagating the
storage error. -/
theorem reassign_getUser_fault_behavior (s : DBState) (prID old : String)
    (rng : Rng) (pr : PR)
    (hpr : GetPR s prID = some pr) (hm : pr.Status ≠ "MERGED")
    (hass : old ∈ pr.AssignedReviewers)
    (hcand : GetActiveTeamMembers s "" (pr.AssignedReviewers ++ [pr.AuthorID]) = []) :
    reassignReviewerCore s prID old rng true =
      (Except.error SvcErr.noCandidate, s, rng) := by
  have h1 : (pr.Status == "MERGED") = false := by
    rw [beq_eq_false_iff_ne]; exact hm
  have h2 : pr.AssignedReviewers.contains old = true := contains_iff.mpr hass
  have h3 : GetUserWithFault s old true =
      GetUserOutcome.scanFailed
        { UserID := "", Username := "", TeamName := "", IsActive := false } := rfl
  unfold reassignReviewerCore
  rw [hpr]
  simp only [h1, Bool.false_eq_true, if_false, h2, Bool.not_true, h3, hcand,
    List.length_nil]
  simp

/-- C10 witness for the amended statement: on sW6 the faulted call continues
to the typed noCandidate failure with the store unchanged. -/
theorem reassign_getUser_fault_behavior_witness :
    GetPR sW6 "pr1" = some prW6 ∧ prW6.Status ≠ "MERGED" ∧
    "b" ∈ prW6.AssignedReviewers ∧
    GetActiveTeamMembers sW6 "" (prW6.AssignedReviewers ++ [prW6.AuthorID]) = [] ∧
    reassignReviewerCore sW6 "pr1" "b" rngW true =
      (Except.error SvcErr.noCandidate, sW6, rngW) :=
  ⟨by decide, by decide, by decide, by decide,
   reassign_getUser_fault_behavior sW6 "pr1" "b" rngW prW6 (by decide) (by decide)
     (by decide) (by decide)⟩

/-! C4: reviewer cap and membership at creation. -/

lemma filter_new_pairs (s : DBState) (prID : String) (revs : List String)
    (hfk : ∀ rv ∈ s.prReviewers, rv.1 ∈ s.prs.map (fun p => p.prId))
    (hne : PRExists s prID = false) :
    ((s.prReviewers ++ revs.map (fun x => (prID, x))).filter
      (fun rv => rv.1 == prID)).map (fun rv => rv.2) = revs := by
  rw [List.filter_append, revsRaw_eq_nil_of_fresh s prID hfk hne]
  have h2 : (revs.map (fun x => (prID, x))).filter (fun rv => rv.1 == prID) =
      revs.map (fun x => (prID, x)) := by
    rw [List.filter_eq_self]
    intro rv hrv
    rw [List.mem_map] at hrv
    obtain ⟨x, _, rfl⟩ := hrv
    exact beq_self_eq_true prID
  rw [h2]
  simp [List.map_map, Function.comp]

/-- C4 (confirmed): every successfully created pull request carries at most
two reviewers, never includes its author as reviewer, and every chosen
reviewer is an active member of the author's team at creation time. -/
theorem createPullRequest_reviewer_cap (s : DBState) (prID prName authorID : String)
    (rng : Rng) (now : Nat) (pr : PR)
    (hwf : WFState s)
    (hok : (CreatePullRequest s prID prName authorID rng now).1 = Except.ok pr) :
    pr.AssignedReviewers.length ≤ 2 ∧
    authorID ∉ pr.AssignedReviewers ∧
    ∃ author, GetUser s authorID = some author ∧
      ∀ x ∈ pr.AssignedReviewers, ∃ u ∈ s.users,
        u.UserID = x ∧ u.IsActive = true ∧ u.TeamName = author.TeamName := by
  unfold CreatePullRequest at hok
  cases hex : PRExists s prID with
  | true => rw [hex] at hok; simp at hok
  | false =>
      rw [hex] at hok
      simp only [Bool.false_eq_true, if_false] at hok
      cases hau : GetUser s authorID with
      | none => rw [hau] at hok; simp at hok
      | some author =>
          rw [hau] at hok
          simp only [] at hok
          cases hcr : CreatePR s
              { ID := prID, Name := prName, AuthorID := authorID, Status := "OPEN",
                AssignedReviewers := (pickRandomReviewers
                  (GetActiveTeamMembers s author.TeamName [authorID]) 2 rng).1,
                CreatedAt := none, MergedAt := none } now with
          | none => rw [hcr] at hok; simp at hok
          | some s' =>
              rw [hcr] at hok
              have hs' := CreatePR_state s
                { ID := prID, Name := prName, AuthorID := authorID, Status := "OPEN",
                  AssignedReviewers := (pickRandomReviewers
                    (GetActiveTeamMembers s author.TeamName [authorID]) 2 rng).1,
                  CreatedAt := none, MergedAt := none } now s' hex hcr
              rw [hs'] at hok
              dsimp only [] at hok
              have hget := GetPR_of_new_row s
                { prId := prID, prName := prName, authorId := authorID,
                  status := "OPEN", createdAt := some now, mergedAt := none }
                (s.prReviewers ++ ((pickRandomReviewers
                  (GetActiveTeamMembers s author.TeamName [authorID]) 2 rng).1).map
                    (fun x => (prID, x))) hex
              dsimp only [] at hget
              rw [hget] at hok
              simp only [Except.ok.injEq] at hok
              rw [filter_new_pairs s prID _ hwf.2.2.2.1 hex] at hok
              have hrevs : pr.AssignedReviewers = sortStrings ((pickRandomReviewers
                  (GetActiveTeamMembers s author.TeamName [authorID]) 2 rng).1) := by
                rw [← hok]
              refine ⟨?_, ?_, author, rfl, ?_⟩
              · rw [hrevs, length_sortStrings]
                exact length_pickRandomReviewers_le _ 2 rng
              · rw [hrevs]
                intro hmem
                rw [mem_sortStrings] at hmem
                have hc := mem_of_mem_pickRandomReviewers hmem
                rw [mem_GetActiveTeamMembers] at hc
                exact hc.2 (by simp)
              · intro x hx
                rw [hrevs, mem_sortStrings] at hx
                have hc := mem_of_mem_pickRandomReviewers hx
                rw [mem_GetActiveTeamMembers] at hc
                obtain ⟨⟨u, hu, hid, ht, ha⟩, _⟩ := hc
                exact ⟨u, hu, hid, ha, ht⟩

/-- C4 witness: creating pr1 on sW4 assigns the two active non-author
members b and c. -/
theorem createPullRequest_reviewer_cap_witness :
    WFState sW4 ∧
    (CreatePullRequest sW4 "pr1" "x" "a" rngW 0).1 = Except.ok prW4 ∧
    (prW4.AssignedReviewers.length ≤ 2 ∧
     "a" ∉ prW4.AssignedReviewers ∧
     ∃ author, GetUser sW4 "a" = some author ∧
       ∀ x ∈ prW4.AssignedReviewers, ∃ u ∈ sW4.users,
         u.UserID = x ∧ u.IsActive = true ∧ u.TeamName = author.TeamName) :=
  ⟨by decide, rfl,
   createPullRequest_reviewer_cap sW4 "pr1" "x" "a" rngW 0 prW4 (by decide) rfl⟩

/-! C6: invariants of a successful reassignment. -/

lemma map_snd_filter_ne (old : String) (l : List (String × String)) :
    (l.filter (fun rv => !(rv.2 == old))).map (fun rv => rv.2) =
      (l.map (fun rv => rv.2)).filter (fun x => !(x == old)) := by
  induction l with
  | nil => rfl
  | cons rv rest ih =>
      cases h : rv.2 == old
      · simp [List.filter_cons, h, ih]
      · simp [List.filter_cons, h, ih]

lemma filter_swap_pairs (rvs : List (String × String)) (prID old newR : String) :
    (((rvs.filter (fun rv => !(rv.1 == prID && rv.2 == old))) ++
        [(prID, newR)]).filter (fun rv => rv.1 == prID)).map (fun rv => rv.2) =
      ((rvs.filter (fun rv => rv.1 == prID)).map (fun rv => rv.2)).filter
        (fun x => !(x == old)) ++ [newR] := by
  rw [List.filter_append, List.map_append]
  congr 1
  · rw [List.filter_filter]
    have hpt : ∀ rv ∈ rvs, ((rv.1 == prID) && !(rv.1 == prID && rv.2 == old)) =
        ((fun rv : String × String => !(rv.2 == old)) rv && (rv.1 == prID)) := by
      intro rv _
      cases h1 : rv.1 == prID <;> cases h2 : rv.2 == old <;> simp [h1, h2]
    rw [List.filter_congr hpt, ← List.filter_filter]
    exact map_snd_filter_ne old (rvs.filter (fun rv => rv.1 == prID))
  · simp

lemma ReplaceReviewer_success (s : DBState) (prID old newR : String) (s2 : DBState)
    (hne : newR ≠ "") (hrep : ReplaceReviewer s prID old newR = some s2) :
    ((prID, newR) ∉ s.prReviewers.filter
      (fun rv => !(rv.1 == prID && rv.2 == old))) ∧
    s2 = { s with prReviewers :=
      s.prReviewers.filter (fun rv => !(rv.1 == prID && rv.2 == old)) ++
        [(prID, newR)] } := by
  unfold ReplaceReviewer at hrep
  rw [show (newR == "") = false from beq_eq_false_iff_ne.mpr hne] at hrep
  simp only [Bool.false_eq_true, if_false] at hrep
  unfold insertPrReviewer at hrep
  cases hc : (s.prReviewers.filter
      (fun rv => !(rv.1 == prID && rv.2 == old))).contains (prID, newR) with
  | true => rw [hc] at hrep; simp at hrep
  | false =>
      rw [hc] at hrep
      simp only [Bool.false_eq_true, if_false] at hrep
      exact ⟨contains_eq_false_iff.mp hc, (Option.some.inj hrep).symm⟩

lemma GetPR_set_reviewers (s : DBState) (X : List (String × String)) (prID : String)
    (row : PRRow) (hfrow : s.prs.find? (fun p => p.prId == prID) = some row) :
    GetPR { s with prReviewers := X } prID =
      some { ID := row.prId, Name := row.prName, AuthorID := row.authorId,
             Status := row.status,
             AssignedReviewers := sortStrings ((X.filter
               (fun rv => rv.1 == prID)).map (fun rv => rv.2)),
             CreatedAt := row.createdAt, MergedAt := row.mergedAt } := by
  unfold GetPR
  have hf : ({ s with prReviewers := X } : DBState).prs.find?
      (fun p => p.prId == prID) = some row := hfrow
  rw [hf]
  rfl

/-- C6 (confirmed): after every successful ReassignReviewer the old reviewer
is absent from the PR's reviewer set, the returned new reviewer is
present, the author is still excluded, the set size is unchanged, and the
new reviewer was drawn from the users active in the old reviewer's team at
call time. -/
theorem reassignReviewer_invariants (s : DBState) (prID oldReviewerID : String)
    (rng : Rng) (pr0 upd : PR) (newR : String)
    (hwf : WFState s)
    (hpr : GetPR s prID = some pr0)
    (hauth : pr0.AuthorID ∉ pr0.AssignedReviewers)
    (hok : (ReassignReviewer s prID oldReviewerID rng).1 = Except.ok (upd, newR)) :
    oldReviewerID ∉ upd.AssignedReviewers ∧
    newR ∈ upd.AssignedReviewers ∧
    upd.AuthorID ∉ upd.AssignedReviewers ∧
    upd.AssignedReviewers.length = pr0.AssignedReviewers.length ∧
    ∃ oldU, GetUser s oldReviewerID = some oldU ∧
      ∃ u ∈ s.users, u.UserID = newR ∧ u.IsActive = true ∧
        u.TeamName = oldU.TeamName := by
  have hrowE : ∃ row, s.prs.find? (fun p => p.prId == prID) = some row ∧
      pr0 = { ID := row.prId, Name := row.prName, AuthorID := row.authorId,
              Status := row.status,
              AssignedReviewers := sortStrings (revsRaw s prID),
              CreatedAt := row.createdAt, MergedAt := row.mergedAt } := by
    unfold GetPR at hpr
    cases hf : s.prs.find? (fun p => p.prId == prID) with
    | none => rw [hf] at hpr; simp at hpr
    | some row =>
        rw [hf] at hpr
        exact ⟨row, rfl, (Option.some.inj hpr).symm⟩
  obtain ⟨row, hfrow, hpr0⟩ := hrowE
  unfold ReassignReviewer reassignReviewerCore at hok
  rw [hpr] at hok
  dsimp only [] at hok
  cases hst : pr0.Status == "MERGED" with
  | true => rw [hst] at hok; simp at hok
  | false =>
  rw [hst] at hok
  simp only [Bool.false_eq_true, if_false] at hok
  cases hcont : pr0.AssignedReviewers.contains oldReviewerID with
  | false => rw [hcont] at hok; simp at hok
  | true =>
  rw [hcont] at hok
  simp only [Bool.not_true, Bool.false_eq_true, if_false] at hok
  have hold_mem : oldReviewerID ∈ pr0.AssignedReviewers := contains_iff.mp hcont
  cases hgu : GetUser s oldReviewerID with
  | none =>
      have h3 : GetUserWithFault s oldReviewerID false = .notFound := by
        unfold GetUserWithFault
        rw [if_neg (by simp)]
        unfold GetUser at hgu
        rw [hgu]
      rw [h3] at hok
      simp at hok
  | some oldU =>
  have h3 : GetUserWithFault s oldReviewerID false = .found oldU := by
    unfold GetUserWithFault
    rw [if_neg (by simp)]
    unfold GetUser at hgu
    rw [hgu]
  rw [h3] at hok
  dsimp only [] at hok
  cases hlen : (GetActiveTeamMembers s oldU.TeamName
      (pr0.AssignedReviewers ++ [pr0.AuthorID])).length == 0 with
  | true => rw [hlen] at hok; simp at hok
  | false =>
  rw [hlen] at hok
  simp only [Bool.false_eq_true, if_false] at hok
  have hpos : 0 < (GetActiveTeamMembers s oldU.TeamName
      (pr0.AssignedReviewers ++ [pr0.AuthorID])).length := by
    have := beq_eq_false_iff_ne.mp hlen
    omega
  have hj : (rng.intn (GetActiveTeamMembers s oldU.TeamName
      (pr0.AssignedReviewers ++ [pr0.AuthorID])).length).1 <
      (GetActiveTeamMembers s oldU.TeamName
        (pr0.AssignedReviewers ++ [pr0.AuthorID])).length :=
    Nat.mod_lt _ hpos
  have hnewmem : (GetActiveTeamMembers s oldU.TeamName
      (pr0.AssignedReviewers ++ [pr0.AuthorID])).getD
        (rng.intn (GetActiveTeamMembers s oldU.TeamName
          (pr0.AssignedReviewers ++ [pr0.AuthorID])).length).1 "" ∈
      GetActiveTeamMembers s oldU.TeamName
        (pr0.AssignedReviewers ++ [pr0.AuthorID]) := getD_mem_of_lt hj
  have hns := mem_GetActiveTeamMembers.mp hnewmem
  obtain ⟨⟨u, hu, hid, ht, ha⟩, hexcl⟩ := hns
  have hne : (GetActiveTeamMembers s oldU.TeamName
      (pr0.AssignedReviewers ++ [pr0.AuthorID])).getD
        (rng.intn (GetActiveTeamMembers s oldU.TeamName
          (pr0.AssignedReviewers ++ [pr0.AuthorID])).length).1 "" ≠ "" := by
    rw [← hid]
    exact hwf.2.2.2.2 u hu
  cases hrep : ReplaceReviewer s prID oldReviewerID
      ((GetActiveTeamMembers s oldU.TeamName
        (pr0.AssignedReviewers ++ [pr0.AuthorID])).getD
          (rng.intn (GetActiveTeamMembers s oldU.TeamName
            (pr0.AssignedReviewers ++ [pr0.AuthorID])).length).1 "") with
  | none => rw [hrep] at hok; simp at hok
  | some s2 =>
  rw [hrep] at hok
  dsimp only [] at hok
  obtain ⟨hnodup_ins, hs2⟩ := ReplaceReviewer_success s prID oldReviewerID _ s2 hne hrep
  rw [hs2] at hok
  rw [GetPR_set_reviewers s _ prID row hfrow] at hok
  dsimp only [] at hok
  simp only [Except.ok.injEq, Prod.mk.injEq] at hok
  obtain ⟨hupd, hnewR⟩ := hok
  rw [filter_swap_pairs] at hupd
  have hB : pr0.AssignedReviewers = sortStrings (revsRaw s prID) := by
    rw [hpr0]
  have hBnd : (revsRaw s prID).Nodup := nodup_revsRaw prID hwf.2.2.1
  have holdB : oldReviewerID ∈ revsRaw s prID := by
    rw [hB, mem_sortStrings] at hold_mem
    exact hold_mem
  have hA : upd.AssignedReviewers = sortStrings
      (((revsRaw s prID).filter (fun x => !(x == oldReviewerID))) ++ [newR]) := by
    rw [← hupd, hnewR]
    rfl
  have hnewR_excl : newR ∉ pr0.AssignedReviewers ++ [pr0.AuthorID] := by
    rw [← hnewR]
    exact hexcl
  have hnewR_not_old : newR ≠ oldReviewerID := by
    intro he
    exact hnewR_excl (List.mem_append.mpr (Or.inl (he ▸ hold_mem)))
  have hnewR_not_auth : newR ≠ pr0.AuthorID := by
    intro he
    exact hnewR_excl (List.mem_append.mpr (Or.inr (by simp [he])))
  have hupd_auth : upd.AuthorID = pr0.AuthorID := by
    rw [← hupd, hpr0]
  refine ⟨?_, ?_, ?_, ?_, oldU, rfl, u, hu, hid.trans hnewR, ha, ht⟩
  · rw [hA, mem_sortStrings]
    intro hmem
    rcases List.mem_append.mp hmem with hmem | hmem
    · rw [List.mem_filter] at hmem
      simp at hmem
    · simp at hmem
      exact hnewR_not_old hmem.symm
  · rw [hA, mem_sortStrings]
    exact List.mem_append.mpr (Or.inr (by simp))
  · rw [hA, mem_sortStrings, hupd_auth]
    intro hmem
    rcases List.mem_append.mp hmem with hmem | hmem
    · rw [List.mem_filter] at hmem
      have : pr0.AuthorID ∈ pr0.AssignedReviewers := by
        rw [hB, mem_sortStrings]
        exact hmem.1
      exact hauth this
    · simp at hmem
      exact hnewR_not_auth hmem.symm
  · rw [hA, hB, length_sortStrings, length_sortStrings, List.length_append,
      List.length_singleton]
    exact length_filter_ne_of_nodup hBnd holdB

/-- C6 witness: on sW6 the reassignment of b succeeds, replacing b by c. -/
theorem reassignReviewer_invariants_witness :
    WFState sW6 ∧ GetPR sW6 "pr1" = some prW6 ∧
    prW6.AuthorID ∉ prW6.AssignedReviewers ∧
    (ReassignReviewer sW6 "pr1" "b" rngW).1 = Except.ok (prW6', "c") ∧
    ("b" ∉ prW6'.AssignedReviewers ∧
     "c" ∈ prW6'.AssignedReviewers ∧
     prW6'.AuthorID ∉ prW6'.AssignedReviewers ∧
     prW6'.AssignedReviewers.length = prW6.AssignedReviewers.length ∧
     ∃ oldU, GetUser sW6 "b" = some oldU ∧
       ∃ u ∈ sW6.users, u.UserID = "c" ∧ u.IsActive = true ∧
         u.TeamName = oldU.TeamName) :=
  ⟨by decide, by decide, by decide, rfl,
   reassignReviewer_invariants sW6 "pr1" "b" rngW prW6 prW6' "c" (by decide)
     (by decide) (by decide) rfl⟩

end PRReviewer
